import Mathlib

/-!
# Verification of the migration choropleth pipeline (`src/index.js`)

A shallow embedding of the data-acquisition/caching/transformation pipeline
and the color-derivation algorithm of the repository, together with theorems
checking the natural-language specification against it.

Modelling conventions:
* JS numbers in the statistical cubes are modelled as `Int` (the counts are
  integral); arithmetic inside `calcHue` is modelled over `ℚ` (exact reals).
* The JS value `undefined` (an absent object field, an out-of-bounds array
  read, a failed object lookup) is modelled as `Option.none`; `NaN` arising
  from arithmetic on `undefined` is also modelled as `none` — both are falsy
  and both propagate through the arithmetic the program performs.
* A JS object used as a string-keyed record is modelled as an association
  list; assignment `o[k] = v` keeps the position of an existing key
  (`setEntry`), and `o[k]` reads the first (unique) matching key (`assocGet`).
* `sessionStorage` is modelled as two optional string slots; `JSON.stringify`
  and `JSON.parse` are modelled character-exactly on the sublanguage of JSON
  documents this program reads and writes: `null` and migration-table shaped
  objects whose keys contain no quote, backslash or control characters
  (region codes are digit strings).  Any other stored text behaves as
  unparsable, and a parse failure models the uncaught `SyntaxError`.
* The settled outcomes of the three fetches `getData`'s miss path launches
  are passed to `getData` as explicit inputs (`FetchResults`); the null
  sentinel returned by `fetchJsonData` on any failure is `none` /
  `CachedVal.nullv`.  The source applies `Promise.all` to the three
  promises as three separate arguments; `Promise.all` takes one iterable,
  a promise is not iterable, so the call rejects with a `TypeError` and the
  `await` rethrows it out of `getData` on every cache miss.  The model
  keeps this fault: the miss path is `.error .typeError`, and everything
  after the join in the source (null guard, decoder call, both `setItem`
  writes, the final return of fetched data) is unreachable.  Exceptions are
  modelled by `Except.error`; an error outcome leaves the storage state
  unchanged, since both `setItem` calls sit after the throw points.
-/

/-- One row of the decoded migration table, as built by `formatMigrationData`:
`accumulator[label] = { immigration: ..., emigration: ... }`.  A field holds
`none` when the source expression evaluated to `undefined`. -/
structure Row where
  immigration : Option Int
  emigration : Option Int
deriving DecidableEq, Repr

/-- The decoded migration table: a JS object keyed by region code. -/
abbrev Table := List (String × Row)

/-- JS object read `o[k]`: the value at the (unique) key, else `undefined`. -/
def assocGet {α : Type} : List (String × α) → String → Option α
  | [], _ => none
  | (k', v) :: t, k => if k' = k then some v else assocGet t k

/-- JS object assignment `o[k] = v`: update in place when the key exists
(keeping its position), otherwise append the new entry. -/
def setEntry {α : Type} : List (String × α) → String → α → List (String × α)
  | [], k, v => [(k, v)]
  | (k', v') :: t, k, v =>
    if k' = k then (k', v) :: t else (k', v') :: setEntry t k v

/-- `key.replace(/^KU/, "")`: strip one leading `KU` marker if present
(the anchored pattern matches exactly when the first two characters are
`K`, `U`, and replacing it with the empty string drops them). -/
def stripKU (k : String) : String :=
  match k.data with
  | 'K' :: 'U' :: rest => String.mk rest
  | _ => k

/-- A statistical cube, already projected to the two paths the decoder reads:
`dataset.value` (the flat value sequence) and
`dataset.dimension["Tuloalue"|"Lähtöalue"].category.index` (the dimension
index, a JS object from raw key to array position, in insertion order). -/
structure Cube where
  value : List Int
  index : List (String × Nat)
deriving DecidableEq, Repr

/-- The row built for one immigration-index entry `kv`:
`immigration = immigrationValues[value]` and
`emigration = emigrationValues[emigrationIndexes[key]]`; each read yields
`undefined` (`none`) when out of bounds or when the key is absent. -/
def mkRow (immigrationData emigrationData : Cube) (kv : String × Nat) : Row :=
  { immigration := immigrationData.value[kv.2]?
    emigration :=
      match assocGet emigrationData.index kv.1 with
      | some i => emigrationData.value[i]?
      | none => none }

/-- `formatMigrationData` (src/index.js lines 82–102): fold the immigration
dimension index into an accumulator object, one assignment per entry. -/
def formatMigrationData (immigrationData emigrationData : Cube) : Table :=
  immigrationData.index.foldl
    (fun accumulator kv =>
      setEntry accumulator (stripKU kv.1) (mkRow immigrationData emigrationData kv))
    []

/-- `calcHue` (src/index.js lines 171–174) on JS values:
`Math.min(Math.pow(pos / (neg || 1), 3) * 60, 120)`.  `none` stands for
`undefined`/`NaN`: `undefined` and `0` are falsy in `neg || 1`, and a `NaN`
numerator propagates through `/`, `Math.pow`, `*` and `Math.min`. -/
def calcHueU (positiveMigration negativeMigration : Option ℚ) : Option ℚ :=
  match positiveMigration with
  | none => none
  | some p =>
    let d : ℚ :=
      match negativeMigration with
      | none => 1
      | some n => if n = 0 then 1 else n
    some (min ((p / d) ^ 3 * 60) 120)

/-- The color part of a style object: either an `hsl(<hue>,75%,50%)` string
(`none` hue renders the text `NaN`) or a literal color string. -/
inductive ColorSpec where
  | hsl (hue : Option ℚ)
  | lit (s : String)
deriving DecidableEq, Repr

/-- A Leaflet style object `{ color, weight }`. -/
structure Style where
  color : ColorSpec
  weight : Nat
deriving DecidableEq, Repr

/-- A geographic feature, projected to the two properties the program reads
(`feature.properties?.name`, `feature.properties?.kunta`); `none` covers both
a missing property and missing `properties`. -/
structure Feature where
  name : Option String
  kunta : Option String
deriving DecidableEq, Repr

/-- JS truthiness of an optional string: `undefined` and `""` are falsy. -/
def truthyStr : Option String → Bool
  | none => false
  | some s => !s.isEmpty

/-- `styleFunction` (src/index.js lines 150–163): an `hsl` style of weight 2
when the feature has a truthy `kunta` code (a missing table entry
destructures `{}`, i.e. both counts `undefined`), else the `#ccc` weight-1
default. -/
def styleFunction (feature : Feature) (migrationData : Table) : Style :=
  match feature.kunta with
  | some code =>
    if code.isEmpty then { color := .lit "#ccc", weight := 1 }
    else
      let row := (assocGet migrationData code).getD { immigration := none, emigration := none }
      { color := .hsl (calcHueU (row.immigration.map (fun z => (z : ℚ)))
                                (row.emigration.map (fun z => (z : ℚ))))
        weight := 2 }
  | none => { color := .lit "#ccc", weight := 1 }

/-- The observable bindings made by `onEachFunction` (src/index.js lines
129–142): the tooltip text, and the immigration/emigration pair interpolated
into the popup template (a missing table entry defaults to
`{ immigration: 0, emigration: 0 }`). -/
structure LayerBindings where
  tooltip : Option String
  popup : Option (Option Int × Option Int)
deriving DecidableEq, Repr

/-- `onEachFunction` (src/index.js lines 129–142). -/
def onEachFunction (feature : Feature) (migrationData : Table) : LayerBindings :=
  { tooltip := if truthyStr feature.name then feature.name else none
    popup :=
      match feature.kunta with
      | some code =>
        if code.isEmpty then none
        else
          let row := (assocGet migrationData code).getD
            { immigration := some 0, emigration := some 0 }
          some (row.immigration, row.emigration)
      | none => none }

/-! ## The session-cache text encoding: a character-exact model of
`JSON.stringify` / `JSON.parse` on the documents this program stores. -/

/-- Decimal digits of `n`, most significant first, via structural fuel
(`fuel > n` suffices, and the wrapper passes `n + 1`). -/
def natCharsAux : Nat → Nat → List Char
  | 0, _ => []
  | fuel + 1, n =>
    if n < 10 then [Nat.digitChar n]
    else natCharsAux fuel (n / 10) ++ [Nat.digitChar (n % 10)]

/-- Decimal rendering of a natural number. -/
def natChars (n : Nat) : List Char := natCharsAux (n + 1) n

/-- Decimal rendering of an integer, as `JSON.stringify` emits it. -/
def intChars (n : Int) : List Char :=
  if n < 0 then '-' :: natChars n.natAbs else natChars n.toNat

/-- The characters `"immigration":` opening the first row field. -/
def immFieldLit : List Char :=
  ['"', 'i', 'm', 'm', 'i', 'g', 'r', 'a', 't', 'i', 'o', 'n', '"', ':']

/-- The characters `"emigration":` opening the second row field. -/
def emgFieldLit : List Char :=
  ['"', 'e', 'm', 'i', 'g', 'r', 'a', 't', 'i', 'o', 'n', '"', ':']

/-- `JSON.stringify` of one row object.  A field whose value is `undefined`
is omitted entirely (that is what `JSON.stringify` does). -/
def stringifyRowChars (r : Row) : List Char :=
  match r.immigration, r.emigration with
  | some a, some b =>
    '\x7b' :: (immFieldLit ++ intChars a ++ ',' :: (emgFieldLit ++ intChars b ++ ['\x7d']))
  | some a, none => '\x7b' :: (immFieldLit ++ intChars a ++ ['\x7d'])
  | none, some b => '\x7b' :: (emgFieldLit ++ intChars b ++ ['\x7d'])
  | none, none => ['\x7b', '\x7d']

/-- `JSON.stringify` of one table entry: `"<code>":<row>`.  Keys are written
verbatim; the model is character-exact for keys without quote, backslash or
control characters (see `plainKey`). -/
def stringifyEntryChars (e : String × Row) : List Char :=
  '"' :: (e.1.data ++ '"' :: ':' :: stringifyRowChars e.2)

/-- The entries of a table rendering, comma-separated, with the closing
brace attached after the last entry. -/
def stringifyEntriesChars : Table → List Char
  | [] => ['\x7d']
  | [e] => stringifyEntryChars e ++ ['\x7d']
  | e :: t => stringifyEntryChars e ++ ',' :: stringifyEntriesChars t

/-- `JSON.stringify` of the whole table object. -/
def stringifyTableChars (t : Table) : List Char :=
  '\x7b' :: stringifyEntriesChars t

/-- `JSON.stringify` of a migration table, as written to `sessionStorage`. -/
def stringifyTable (t : Table) : String := String.mk (stringifyTableChars t)

/-- The JSON documents this pipeline stores and passes around: `null` (the
fetch-failure sentinel is the JS value `null`, and `JSON.stringify(null)` is
the text `null`) or an object.  Geo feature collections are opaque to the
pipeline — only their truthiness and their serialized text matter — so any
stored object is represented by this table-shaped type. -/
inductive CachedVal where
  | nullv
  | tablev (t : Table)
deriving DecidableEq, Repr

/-- JS truthiness: `null` is falsy, any object is truthy. -/
def CachedVal.truthy : CachedVal → Bool
  | .nullv => false
  | .tablev _ => true

/-! ### The parser (`JSON.parse` on the stored sublanguage) -/

/-- Split a leading run of decimal digits from the input. -/
def takeDigits : List Char → List Char × List Char
  | [] => ([], [])
  | c :: cs =>
    if c.isDigit then
      let p := takeDigits cs
      (c :: p.1, p.2)
    else ([], c :: cs)

/-- The numeric value of a digit string (most significant first). -/
def digitsVal (ds : List Char) : Nat :=
  ds.foldl (fun a c => a * 10 + (c.toNat - 48)) 0

/-- Parse a nonempty digit run into a natural number. -/
def parseNat (cs : List Char) : Option (Nat × List Char) :=
  let p := takeDigits cs
  if p.1 = [] then none else some (digitsVal p.1, p.2)

/-- Parse an optionally negated decimal integer. -/
def parseInt (cs : List Char) : Option (Int × List Char) :=
  match cs with
  | [] => none
  | c :: cs' =>
    if c = '-' then (parseNat cs').map (fun p => (-(p.1 : Int), p.2))
    else (parseNat (c :: cs')).map (fun p => ((p.1 : Int), p.2))

/-- Consume characters up to the closing quote; the opening quote has
already been consumed.  Returns the body and the text after the quote. -/
def takeUntilQuote : List Char → Option (List Char × List Char)
  | [] => none
  | c :: cs =>
    if c = '"' then some ([], cs)
    else (takeUntilQuote cs).map (fun p => (c :: p.1, p.2))

/-- Consume an exact literal character sequence. -/
def dropLit : List Char → List Char → Option (List Char)
  | [], cs => some cs
  | _ :: _, [] => none
  | l :: ls, c :: cs => if l = c then dropLit ls cs else none

/-- Parse one named integer field, literal name included. -/
def parseField (lit : List Char) (cs : List Char) : Option (Int × List Char) :=
  match dropLit lit cs with
  | none => none
  | some cs₁ => parseInt cs₁

/-- Parse one row object (both fields optional, `immigration` first, as the
serializer emits them): the empty object, or an open brace followed by one
or two named fields and the closing brace. -/
def parseRow (cs : List Char) : Option (Row × List Char) :=
  match dropLit ['\x7b', '\x7d'] cs with
  | some rest => some ({ immigration := none, emigration := none }, rest)
  | none =>
    match dropLit ['\x7b'] cs with
    | none => none
    | some cs₁ =>
      match parseField immFieldLit cs₁ with
      | some (a, cs₂) =>
        (match dropLit ['\x7d'] cs₂ with
         | some rest => some ({ immigration := some a, emigration := none }, rest)
         | none =>
           match dropLit [','] cs₂ with
           | none => none
           | some cs₃ =>
             match parseField emgFieldLit cs₃ with
             | some (b, cs₄) =>
               (match dropLit ['\x7d'] cs₄ with
                | some rest =>
                  some ({ immigration := some a, emigration := some b }, rest)
                | none => none)
             | none => none)
      | none =>
        match parseField emgFieldLit cs₁ with
        | some (b, cs₂) =>
          (match dropLit ['\x7d'] cs₂ with
           | some rest => some ({ immigration := none, emigration := some b }, rest)
           | none => none)
        | none => none

/-- Parse one `"<key>":<row>` entry. -/
def parseEntry (cs : List Char) : Option ((String × Row) × List Char) :=
  match dropLit ['"'] cs with
  | none => none
  | some cs₁ =>
    match takeUntilQuote cs₁ with
    | some (k, cs₂) =>
      match dropLit [':'] cs₂ with
      | none => none
      | some cs₃ => (parseRow cs₃).map (fun p => ((String.mk k, p.1), p.2))
    | none => none

/-- Parse a nonempty comma-separated entry sequence up to the closing brace.
Structural fuel; any `fuel` exceeding the entry count suffices. -/
def parseEntries : Nat → List Char → Option (Table × List Char)
  | 0, _ => none
  | fuel + 1, cs =>
    match parseEntry cs with
    | none => none
    | some (e, cs₁) =>
      match dropLit ['\x7d'] cs₁ with
      | some rest => some ([e], rest)
      | none =>
        match dropLit [','] cs₁ with
        | none => none
        | some cs₂ => (parseEntries fuel cs₂).map (fun p => (e :: p.1, p.2))

/-- Parse a table object: the empty object or a brace-wrapped entry
sequence. -/
def parseTableChars (cs : List Char) : Option (Table × List Char) :=
  match dropLit ['\x7b', '\x7d'] cs with
  | some rest => some ([], rest)
  | none =>
    match dropLit ['\x7b'] cs with
    | none => none
    | some cs₁ => parseEntries (cs₁.length + 1) cs₁

/-- `JSON.parse` of a stored string: the text `null`, or a full table object
with no trailing text.  `none` models the uncaught `SyntaxError`. -/
def jsonParse (s : String) : Option CachedVal :=
  if s = "null" then some .nullv
  else
    match parseTableChars s.data with
    | some (t, []) => some (.tablev t)
    | _ => none

/-- `JSON.parse(sessionStorage.getItem(k))`: a missing item is `null`, which
`JSON.parse` coerces to the text `null` and parses to the JSON value
`null`. -/
def readEntry : Option String → Option CachedVal
  | none => some .nullv
  | some s => jsonParse s

/-- A key `JSON.stringify` writes verbatim (no escaping): no quote, no
backslash, no control characters.  Every region code the decoder emits for
real data is such a key. -/
def plainKey (k : String) : Prop :=
  ∀ c ∈ k.data, c ≠ '"' ∧ c ≠ '\\' ∧ 32 ≤ c.toNat

instance (k : String) : Decidable (plainKey k) :=
  inferInstanceAs (Decidable (∀ c ∈ k.data, c ≠ '"' ∧ c ≠ '\\' ∧ 32 ≤ c.toNat))

/-- True when the input does not continue with a decimal digit (so a
preceding maximal digit run has ended). -/
def headNotDigit : List Char → Bool
  | [] => true
  | c :: _ => !c.isDigit

/-! ## The retrieval orchestrator (`getData`) -/

/-- The two `sessionStorage` slots the program uses (absent or a string). -/
structure Cache where
  geoJsonData : Option String
  migrationData : Option String
deriving DecidableEq, Repr

/-- The settled outcomes of the three `fetchJsonData` calls the miss path
launches.  `fetchJsonData` returns the parsed body on success and the JS
value `null` on any transport, status or content-type failure; `none` /
`.nullv` is that null sentinel.  The fetches do fire, but `getData` never
consumes their results: `Promise.all` is applied to the three promises as
three separate arguments, and the first argument — a promise, not an
iterable — makes `Promise.all` reject with a `TypeError` before any result
is delivered.  The outcomes are still inputs of the model so that theorems
can quantify over them. -/
structure FetchResults where
  immigration : Option Cube
  emigration : Option Cube
  geoJson : CachedVal
deriving DecidableEq, Repr

/-- What `getData` returns on a cache hit: `{ geoJsonData, migrationData }`,
each field a JSON value (`.nullv` is the JS `null`). -/
structure GetDataResult where
  geoJsonData : CachedVal
  migrationData : CachedVal
deriving DecidableEq, Repr

/-- The exceptions `getData` can let escape: the `SyntaxError` of
`JSON.parse` on an unparsable cache slot (lines 47–48, not wrapped in
`try`/`catch`), and the `TypeError` with which the misapplied
`Promise.all(f1, f2, f3)` rejects (lines 55–59: `Promise.all` expects one
iterable, and its first argument is a promise). -/
inductive JsError where
  | syntaxError
  | typeError
deriving DecidableEq, Repr

/-- `getData` (src/index.js lines 46–75).  Reads and parses both cache
slots (a parse failure is the uncaught `SyntaxError`); returns them on a
hit (both truthy).  On a miss it evaluates
`await Promise.all(fetchJsonData(..), fetchJsonData(..), fetchJsonData(..))`:
the three fetches are issued, but `Promise.all` rejects with a `TypeError`
because its first argument is a promise rather than an iterable, and the
`await` rethrows it out of `getData` — the destructuring, the null guard,
`formatMigrationData` and both `setItem` writes on lines 60–74 are dead
code.  An `.error` outcome leaves `sessionStorage` untouched: the throw
happens before either `setItem`.  The returned `Cache` of an `.ok` outcome
is the storage state afterwards. -/
def getData (cache : Cache) (fr : FetchResults) :
    Except JsError (GetDataResult × Cache) :=
  match readEntry cache.geoJsonData with
  | none => .error .syntaxError
  | some geoJsonData =>
    match readEntry cache.migrationData with
    | none => .error .syntaxError
    | some migrationData =>
      if geoJsonData.truthy && migrationData.truthy then
        .ok ({ geoJsonData := geoJsonData, migrationData := migrationData }, cache)
      else
        .error .typeError

/-- The second `getData` variant (src/index.js lines 206–224).  The hit test
is `=== null` on either slot; the miss branch contains the same misapplied
`Promise.all` (lines 210–214), so it throws the same `TypeError` before its
guard, decode, writes, or the final `return` are reached. -/
def getData2 (cache : Cache) (fr : FetchResults) :
    Except JsError (GetDataResult × Cache) :=
  match readEntry cache.geoJsonData with
  | none => .error .syntaxError
  | some geoJsonData =>
    match readEntry cache.migrationData with
    | none => .error .syntaxError
    | some migrationData =>
      if geoJsonData = .nullv ∨ migrationData = .nullv then
        .error .typeError
      else
        .ok ({ geoJsonData := geoJsonData, migrationData := migrationData }, cache)

/-! ## Concrete sample inputs used by the closed evaluations and witnesses -/

/-- A one-municipality immigration cube: value sequence `[5]`, dimension
index `{ KU109: 0 }`. -/
def sampleImmCube : Cube := { value := [5], index := [("KU109", 0)] }

/-- The matching emigration cube: value sequence `[4]`, index `{ KU109: 0 }`. -/
def sampleEmgCube : Cube := { value := [4], index := [("KU109", 0)] }

/-- A cube with an empty value sequence and an empty dimension index. -/
def emptyCube : Cube := { value := [], index := [] }

/-- A two-municipality immigration cube. -/
def pairCube : Cube := { value := [7, 3], index := [("KU109", 0), ("KU5", 1)] }

/-- The table decoded from `sampleImmCube`/`sampleEmgCube`. -/
def sampleTable : Table := [("109", { immigration := some 5, emigration := some 4 })]

/-- The table decoded from `sampleImmCube` against an empty emigration
index: the emigration field is the `undefined` of `emigrationValues[undefined]`. -/
def partialTable : Table := [("109", { immigration := some 5, emigration := none })]

/-! ## Supporting lemmas -/

theorem assocGet_append_of_none {α : Type} (l₁ l₂ : List (String × α)) (k : String)
    (h : assocGet l₁ k = none) : assocGet (l₁ ++ l₂) k = assocGet l₂ k := by
  induction l₁ with
  | nil => simp
  | cons e t ih =>
    obtain ⟨k', v⟩ := e
    simp only [assocGet] at h ⊢
    by_cases hk : k' = k
    · simp [hk] at h
    · simp only [hk, if_false] at h ⊢
      exact ih h

theorem setEntry_of_absent {α : Type} (l : List (String × α)) (k : String) (v : α)
    (h : assocGet l k = none) : setEntry l k v = l ++ [(k, v)] := by
  induction l with
  | nil => simp [setEntry]
  | cons e t ih =>
    obtain ⟨k', v'⟩ := e
    simp only [assocGet] at h
    by_cases hk : k' = k
    · simp [hk] at h
    · simp only [hk, if_false] at h
      simp [setEntry, hk, ih h]

theorem foldl_setEntry_map (imm emg : Cube) :
    ∀ (idx : List (String × Nat)) (acc : Table),
      (∀ kv ∈ idx, assocGet acc (stripKU kv.1) = none) →
      (idx.map fun kv => stripKU kv.1).Nodup →
      idx.foldl (fun a kv => setEntry a (stripKU kv.1) (mkRow imm emg kv)) acc
        = acc ++ idx.map fun kv => (stripKU kv.1, mkRow imm emg kv) := by
  intro idx
  induction idx with
  | nil => simp
  | cons kv rest ih =>
    intro acc habs hnd
    simp only [List.foldl_cons, List.map_cons]
    rw [setEntry_of_absent acc _ _ (habs kv (List.mem_cons_self kv rest))]
    rw [ih (acc ++ [(stripKU kv.1, mkRow imm emg kv)]) ?_ (List.Nodup.of_cons hnd)]
    · simp
    · intro kv' h'
      rw [assocGet_append_of_none _ _ _ (habs kv' (List.mem_cons_of_mem kv h'))]
      have hne : stripKU kv.1 ≠ stripKU kv'.1 := by
        intro hcontra
        have : stripKU kv'.1 ∈ rest.map fun p => stripKU p.1 :=
          List.mem_map.mpr ⟨kv', h', rfl⟩
        rw [← hcontra] at this
        exact (List.nodup_cons.mp hnd).1 this
      simp [assocGet, hne]

theorem formatMigrationData_eq_map (imm emg : Cube)
    (hnd : (imm.index.map fun kv => stripKU kv.1).Nodup) :
    formatMigrationData imm emg
      = imm.index.map fun kv => (stripKU kv.1, mkRow imm emg kv) := by
  unfold formatMigrationData
  rw [foldl_setEntry_map imm emg imm.index [] (fun _ _ => rfl) hnd]
  simp

theorem assocGet_map_of_mem (imm emg : Cube) (k : String) (v : Nat) :
    ∀ (idx : List (String × Nat)),
      (idx.map fun kv => stripKU kv.1).Nodup →
      (k, v) ∈ idx →
      assocGet (idx.map fun kv => (stripKU kv.1, mkRow imm emg kv)) (stripKU k)
        = some (mkRow imm emg (k, v)) := by
  intro idx
  induction idx with
  | nil => simp
  | cons kv rest ih =>
    intro hnd hmem
    rcases List.mem_cons.mp hmem with hhead | htail
    · subst hhead
      simp [assocGet]
    · have hne : stripKU kv.1 ≠ stripKU k := by
        intro hcontra
        have : stripKU k ∈ rest.map fun p => stripKU p.1 :=
          List.mem_map.mpr ⟨(k, v), htail, rfl⟩
        rw [← hcontra] at this
        exact (List.nodup_cons.mp hnd).1 this
      simp only [List.map_cons, assocGet, hne, if_false]
      exact ih (List.Nodup.of_cons hnd) htail

/-! ## Claim theorems -/

/-- Claim C1 (code bug evidence).  With a cold cache and all three fetches
succeeding (two non-null cubes and a non-null feature collection), both
`getData` variants throw the `TypeError` of the misapplied `Promise.all`
instead of passing the cubes to the decoder and returning the fetched
features with the decoded table: the two cubes are never consumed. -/
theorem getData_all_success_throws :
    getData { geoJsonData := none, migrationData := none }
        { immigration := some sampleImmCube, emigration := some sampleEmgCube,
          geoJson := .tablev [] }
      = .error .typeError
    ∧ getData2 { geoJsonData := none, migrationData := none }
        { immigration := some sampleImmCube, emigration := some sampleEmgCube,
          geoJson := .tablev [] }
      = .error .typeError :=
  ⟨rfl, rfl⟩

/-- Claim C2 (code bug evidence).  When a fetch yields the null sentinel
(first: the immigration fetch; second: the geographic fetch), `getData` does
not return the unavailable outcome `{geoJsonData: null, migrationData:
null}` — it throws the `TypeError` of the misapplied `Promise.all`.  No
table is built and nothing is written (the `.error` outcome precedes both
`setItem` calls), but the caller gets an unhandled exception, not the null
signal. -/
theorem getData_fetch_null_throws :
    getData { geoJsonData := none, migrationData := none }
        { immigration := none, emigration := some sampleEmgCube,
          geoJson := .tablev [] }
      = .error .typeError
    ∧ getData { geoJsonData := none, migrationData := none }
        { immigration := some sampleImmCube, emigration := some sampleEmgCube,
          geoJson := .nullv }
      = .error .typeError :=
  ⟨rfl, rfl⟩

/-- Claim C3 (code bug evidence).  For a raw key present in the immigration
index but absent from the emigration index, the decoder leaves the row's
emigration field `undefined` (`emigrationValues[undefined]`), not zero. -/
theorem formatMigrationData_missing_key_eval :
    formatMigrationData sampleImmCube emptyCube = partialTable
    ∧ assocGet partialTable "109"
        = some { immigration := some 5, emigration := none }
    ∧ ({ immigration := some 5, emigration := none } : Row).emigration ≠ some 0 :=
  ⟨rfl, rfl, by decide⟩

/-- Claim C4.  `calcHue` on defined inputs computes
`min(120, 60 * (immigration / (emigration == 0 ? 1 : emigration))^3)`;
`calcHue(1,1) = 60`, `calcHue(5,0) = 120`, and for nonnegative inputs the
result lies in `[0, 120]`. -/
theorem calcHue_formula (immigration emigration : ℚ)
    (himm : 0 ≤ immigration) (hemg : 0 ≤ emigration) :
    calcHueU (some immigration) (some emigration)
      = some (min 120
          (60 * (immigration / (if emigration = 0 then 1 else emigration)) ^ 3))
    ∧ calcHueU (some 1) (some 1) = some 60
    ∧ calcHueU (some 5) (some 0) = some 120
    ∧ ∀ h, calcHueU (some immigration) (some emigration) = some h →
        0 ≤ h ∧ h ≤ 120 := by
  refine ⟨?_, by norm_num [calcHueU], by norm_num [calcHueU], ?_⟩
  · simp only [calcHueU, Option.some_inj]
    rw [min_comm, mul_comm]
  · intro h hh
    simp only [calcHueU, Option.some_inj] at hh
    set d : ℚ := if emigration = 0 then 1 else emigration with hd
    have hdpos : 0 < d := by
      rw [hd]
      split
      · norm_num
      · rename_i hne
        exact lt_of_le_of_ne hemg (Ne.symm hne)
    have hr : 0 ≤ (immigration / d) ^ 3 * 60 := by
      have : 0 ≤ immigration / d := div_nonneg himm hdpos.le
      positivity
    subst hh
    exact ⟨le_min hr (by norm_num), min_le_right _ _⟩

/-- Witness for C4 at a concrete input. -/
theorem calcHue_formula_witness :
    calcHueU (some 10) (some 5)
      = some (min 120 (60 * ((10 : ℚ) / (if (5 : ℚ) = 0 then 1 else 5)) ^ 3)) :=
  (calcHue_formula 10 5 (by norm_num) (by norm_num)).1

/-- Claim C5.  For cubes whose immigration index yields pairwise distinct
normalized region codes, the decoder emits exactly one row per
immigration-index key, in order, keyed by the raw key with its leading `KU`
stripped, and the row's immigration count is the immigration value sequence
read at that key's index position. -/
theorem formatMigrationData_row_per_key (imm emg : Cube)
    (hnd : (imm.index.map fun kv => stripKU kv.1).Nodup) :
    (formatMigrationData imm emg).map Prod.fst
        = imm.index.map (fun kv => stripKU kv.1)
    ∧ ∀ k v, (k, v) ∈ imm.index →
        ∃ r, assocGet (formatMigrationData imm emg) (stripKU k) = some r
          ∧ r.immigration = imm.value[v]? := by
  rw [formatMigrationData_eq_map imm emg hnd]
  constructor
  · simp
  · intro k v hmem
    exact ⟨mkRow imm emg (k, v),
      assocGet_map_of_mem imm emg k v imm.index hnd hmem, rfl⟩

/-- Witness for C5 at a concrete cube pair. -/
theorem formatMigrationData_row_per_key_witness :
    (formatMigrationData pairCube emptyCube).map Prod.fst
        = pairCube.index.map (fun kv => stripKU kv.1)
    ∧ ∀ k v, (k, v) ∈ pairCube.index →
        ∃ r, assocGet (formatMigrationData pairCube emptyCube) (stripKU k) = some r
          ∧ r.immigration = pairCube.value[v]? :=
  formatMigrationData_row_per_key pairCube emptyCube (by decide)

/-- Claim C6 counterexample.  A feature with the region code `999` and an
empty migration table is styled `{ color: hsl(NaN,75%,50%), weight: 2 }`
(the missing entry destructures to `undefined` counts), which is not the
`{ color: "#ccc", weight: 1 }` fallback the claim asserts. -/
theorem styleFunction_fallback_counterexample :
    styleFunction { name := some "Helsinki", kunta := some "999" } []
      = { color := .hsl none, weight := 2 }
    ∧ ({ color := .hsl none, weight := 2 } : Style)
        ≠ { color := .lit "#ccc", weight := 1 } :=
  ⟨rfl, by decide⟩

/-- Claim C6 as amended.  For a feature holding a (truthy) region code with
no matching table entry, `styleFunction` returns the NaN-hue weight-2 style
— the `#ccc` weight-1 fallback is reserved for features without a region
code — while the popup-content function does report immigration 0 and
emigration 0. -/
theorem styleFunction_missing_entry (feature : Feature) (migrationData : Table)
    (code : String) (hcode : feature.kunta = some code)
    (hne : code.isEmpty = false)
    (habsent : assocGet migrationData code = none) :
    styleFunction feature migrationData = { color := .hsl none, weight := 2 }
    ∧ (onEachFunction feature migrationData).popup = some (some 0, some 0) := by
  constructor
  · simp [styleFunction, hcode, hne, habsent, calcHueU]
  · simp [onEachFunction, hcode, hne, habsent]

/-- Witness for the amended C6 at a concrete feature and table. -/
theorem styleFunction_missing_entry_witness :
    styleFunction { name := some "Espoo", kunta := some "049" } sampleTable
      = { color := .hsl none, weight := 2 }
    ∧ (onEachFunction { name := some "Espoo", kunta := some "049" } sampleTable).popup
      = some (some 0, some 0) :=
  styleFunction_missing_entry
    { name := some "Espoo", kunta := some "049" } sampleTable "049" rfl rfl rfl

/-- Claim C10.  When two consecutive raw keys normalize to the same region
code, the decoder returns a single row for that code holding the values of
the key iterated last; the earlier row is overwritten and no error is
signalled. -/
theorem formatMigrationData_label_collision (k₁ k₂ : String) (v₁ v₂ : Nat)
    (vals : List Int) (emg : Cube) (hc : stripKU k₁ = stripKU k₂) :
    formatMigrationData { value := vals, index := [(k₁, v₁), (k₂, v₂)] } emg
      = [(stripKU k₂,
          mkRow { value := vals, index := [(k₁, v₁), (k₂, v₂)] } emg (k₂, v₂))] := by
  simp [formatMigrationData, setEntry, hc]

/-- Witness for C10: the raw keys `KU109` and `109` both normalize to `109`;
the emitted row holds the second key's position (value 9, index 1). -/
theorem formatMigrationData_label_collision_witness :
    formatMigrationData { value := [7, 9], index := [("KU109", 0), ("109", 1)] } emptyCube
      = [(stripKU "109",
          mkRow { value := [7, 9], index := [("KU109", 0), ("109", 1)] } emptyCube ("109", 1))] :=
  formatMigrationData_label_collision "KU109" "109" 0 1 [7, 9] emptyCube rfl

/-- Claim C9.  The cached-state invariant holds, vacuously: neither
`getData` variant ever writes to the session cache.  Every successful run
returns the storage unchanged (the only `ok` path is the cache hit), and
every cache-miss run — in particular every run from the fresh, empty
session — throws the `Promise.all` `TypeError` before reaching the
`setItem` calls on lines 69–73.  So no migration table, partially present
or otherwise, is ever cached by this code, and the "no table exists in the
cache at all" disjunct holds for everything the program writes. -/
theorem cached_table_never_incomplete :
    (∀ (cache : Cache) (fr : FetchResults) (r : GetDataResult × Cache),
        getData cache fr = .ok r → r.2 = cache)
    ∧ (∀ (cache : Cache) (fr : FetchResults) (r : GetDataResult × Cache),
        getData2 cache fr = .ok r → r.2 = cache)
    ∧ (∀ fr : FetchResults,
        getData { geoJsonData := none, migrationData := none } fr
          = .error .typeError)
    ∧ (∀ fr : FetchResults,
        getData2 { geoJsonData := none, migrationData := none } fr
          = .error .typeError) := by
  refine ⟨?_, ?_, fun fr => rfl, fun fr => rfl⟩
  · intro cache fr r h
    unfold getData at h
    cases hg : readEntry cache.geoJsonData with
    | none => simp [hg] at h
    | some vg =>
      simp only [hg] at h
      cases hm : readEntry cache.migrationData with
      | none => simp [hm] at h
      | some vm =>
        simp only [hm] at h
        by_cases hc : (vg.truthy && vm.truthy) = true
        · rw [if_pos hc] at h
          injection h with h2
          rw [← h2]
        · rw [if_neg hc] at h
          simp at h
  · intro cache fr r h
    unfold getData2 at h
    cases hg : readEntry cache.geoJsonData with
    | none => simp [hg] at h
    | some vg =>
      simp only [hg] at h
      cases hm : readEntry cache.migrationData with
      | none => simp [hm] at h
      | some vm =>
        simp only [hm] at h
        by_cases hc : vg = .nullv ∨ vm = .nullv
        · rw [if_pos hc] at h
          simp at h
        · rw [if_neg hc] at h
          injection h with h2
          rw [← h2]

/-- Witness for C9 at concrete inputs: a cache-hit run returns the cache
unchanged, and a fresh-session run throws before any write. -/
theorem cached_table_never_incomplete_witness :
    (({ geoJsonData := .tablev [], migrationData := .tablev sampleTable },
      { geoJsonData := some (stringifyTable []),
        migrationData := some (stringifyTable sampleTable) })
        : GetDataResult × Cache).2
      = { geoJsonData := some (stringifyTable []),
          migrationData := some (stringifyTable sampleTable) }
    ∧ getData { geoJsonData := none, migrationData := none }
        { immigration := none, emigration := none, geoJson := .nullv }
      = .error .typeError :=
  ⟨cached_table_never_incomplete.1
      { geoJsonData := some (stringifyTable []),
        migrationData := some (stringifyTable sampleTable) }
      { immigration := none, emigration := none, geoJson := .nullv } _ rfl,
   cached_table_never_incomplete.2.2.1
      { immigration := none, emigration := none, geoJson := .nullv }⟩

/-- Claim C7 counterexample.  With the geo cache slot holding unparsable
text, `getData` fails with the uncaught `JSON.parse` `SyntaxError` instead
of treating the slot as absent and proceeding without an unhandled
exception. -/
theorem getData_unparsable_counterexample :
    getData { geoJsonData := some "nope", migrationData := none }
        { immigration := none, emigration := none, geoJson := .nullv }
      = .error .syntaxError :=
  rfl

/-- Claim C7 as amended.  An absent slot (either of the two) is read as a
miss — `getItem` yields `null`, `JSON.parse` yields the falsy `null`, the
both-truthy hit test fails, and no cached value is returned — and `getData`
proceeds to the fetch join, where the misapplied `Promise.all` throws a
`TypeError`; a present but unparsable slot makes `JSON.parse` itself throw
a `SyntaxError`.  Either way `getData` ends in an unhandled exception
rather than returning fetched data. -/
theorem getData_cache_read_policy :
    (∀ (fr : FetchResults) (m : Option String) (vm : CachedVal),
        readEntry m = some vm →
        getData { geoJsonData := none, migrationData := m } fr
          = .error .typeError)
    ∧ (∀ (fr : FetchResults) (g : Option String) (vg : CachedVal),
        readEntry g = some vg →
        getData { geoJsonData := g, migrationData := none } fr
          = .error .typeError)
    ∧ (∀ (fr : FetchResults) (m : Option String) (s : String),
        jsonParse s = none →
        getData { geoJsonData := some s, migrationData := m } fr
          = .error .syntaxError)
    ∧ (∀ (fr : FetchResults) (g : Option String) (vg : CachedVal) (s : String),
        readEntry g = some vg → jsonParse s = none →
        getData { geoJsonData := g, migrationData := some s } fr
          = .error .syntaxError) := by
  refine ⟨?_, ?_, ?_, ?_⟩
  · intro fr m vm hm
    simp only [getData,
      show readEntry (none : Option String) = some CachedVal.nullv from rfl, hm]
    simp [CachedVal.truthy]
  · intro fr g vg hg
    simp only [getData]
    rw [hg]
    simp [readEntry, CachedVal.truthy]
  · intro fr m s hs
    simp [getData, readEntry, hs]
  · intro fr g vg s hg hs
    simp only [getData]
    rw [hg]
    simp [readEntry, hs]

/-- Witness for the amended C7 at concrete cache states: geo slot absent
with a parsable migration slot, migration slot absent with a parsable geo
slot, and each slot unparsable. -/
theorem getData_cache_read_policy_witness :
    getData { geoJsonData := none, migrationData := some "null" }
        { immigration := none, emigration := none, geoJson := .nullv }
      = .error .typeError
    ∧ getData { geoJsonData := some (stringifyTable []), migrationData := none }
        { immigration := none, emigration := none, geoJson := .nullv }
      = .error .typeError
    ∧ getData { geoJsonData := some "nonsense", migrationData := none }
        { immigration := none, emigration := none, geoJson := .nullv }
      = .error .syntaxError
    ∧ getData { geoJsonData := none, migrationData := some "nonsense" }
        { immigration := none, emigration := none, geoJson := .nullv }
      = .error .syntaxError :=
  ⟨getData_cache_read_policy.1 _ (some "null") .nullv rfl,
   getData_cache_read_policy.2.1 _ (some (stringifyTable [])) (.tablev []) rfl,
   getData_cache_read_policy.2.2.1 _ none "nonsense" rfl,
   getData_cache_read_policy.2.2.2 _ none .nullv "nonsense" rfl rfl⟩

/-! ## Lemmas for the text-encoding round trip -/

theorem digitChar_isDigit {d : Nat} (h : d < 10) :
    (Nat.digitChar d).isDigit = true := by
  interval_cases d <;> decide

theorem digitChar_toNat {d : Nat} (h : d < 10) :
    (Nat.digitChar d).toNat = 48 + d := by
  interval_cases d <;> decide

theorem digitsVal_append_singleton (ds : List Char) (c : Char) :
    digitsVal (ds ++ [c]) = digitsVal ds * 10 + (c.toNat - 48) := by
  simp [digitsVal, List.foldl_append]

theorem natCharsAux_spec :
    ∀ (fuel n : Nat), n < fuel →
      (∀ c ∈ natCharsAux fuel n, c.isDigit = true)
      ∧ natCharsAux fuel n ≠ []
      ∧ digitsVal (natCharsAux fuel n) = n := by
  intro fuel
  induction fuel with
  | zero => intro n hn; omega
  | succ f ih =>
    intro n hn
    by_cases h10 : n < 10
    · refine ⟨?_, ?_, ?_⟩
      · intro c hc
        simp only [natCharsAux, if_pos h10, List.mem_singleton] at hc
        exact hc ▸ digitChar_isDigit h10
      · simp [natCharsAux, if_pos h10]
      · simp [natCharsAux, if_pos h10, digitsVal, digitChar_toNat h10]
    · have hdiv : n / 10 < f := by
        have := Nat.div_lt_self (by omega : 0 < n) (by omega : 1 < 10)
        omega
      obtain ⟨hdig, hne, hval⟩ := ih (n / 10) hdiv
      refine ⟨?_, ?_, ?_⟩
      · intro c hc
        simp only [natCharsAux, if_neg h10, List.mem_append, List.mem_singleton] at hc
        rcases hc with hc | hc
        · exact hdig c hc
        · exact hc ▸ digitChar_isDigit (Nat.mod_lt n (by omega))
      · simp [natCharsAux, if_neg h10]
      · simp only [natCharsAux, if_neg h10]
        rw [digitsVal_append_singleton, hval, digitChar_toNat (Nat.mod_lt n (by omega))]
        omega

theorem takeDigits_append (ds rest : List Char)
    (hds : ∀ c ∈ ds, c.isDigit = true) (hrest : headNotDigit rest = true) :
    takeDigits (ds ++ rest) = (ds, rest) := by
  induction ds with
  | nil =>
    cases rest with
    | nil => rfl
    | cons c cs =>
      simp only [headNotDigit, Bool.not_eq_true'] at hrest
      simp [takeDigits, hrest]
  | cons d ds' ih =>
    have hd : d.isDigit = true := hds d (List.mem_cons_self d ds')
    simp only [List.cons_append, takeDigits, hd, if_true, List.append_eq]
    rw [ih (fun c hc => hds c (List.mem_cons_of_mem d hc))]

theorem parseNat_natChars (n : Nat) (rest : List Char)
    (hrest : headNotDigit rest = true) :
    parseNat (natChars n ++ rest) = some (n, rest) := by
  obtain ⟨hdig, hne, hval⟩ := natCharsAux_spec (n + 1) n (by omega)
  show parseNat (natCharsAux (n + 1) n ++ rest) = some (n, rest)
  unfold parseNat
  rw [takeDigits_append _ _ hdig hrest]
  simp [hne, hval]

theorem isDigit_ne_dash {c : Char} (h : c.isDigit = true) : c ≠ '-' := by
  intro hc
  rw [hc] at h
  exact absurd h (by decide)

theorem parseInt_intChars (n : Int) (rest : List Char)
    (hrest : headNotDigit rest = true) :
    parseInt (intChars n ++ rest) = some (n, rest) := by
  by_cases hneg : n < 0
  · unfold intChars
    rw [if_pos hneg]
    have hstep : parseInt ('-' :: natChars n.natAbs ++ rest)
        = (parseNat (natChars n.natAbs ++ rest)).map (fun p => (-(p.1 : Int), p.2)) := by
      simp [parseInt]
    rw [hstep, parseNat_natChars _ _ hrest]
    simp only [Option.map_some']
    have hn : -((n.natAbs : Nat) : Int) = n := by omega
    rw [hn]
  · unfold intChars
    rw [if_neg hneg]
    obtain ⟨hdig, hne, _⟩ := natCharsAux_spec (n.toNat + 1) n.toNat (by omega)
    obtain ⟨c, cs, hc⟩ := List.exists_cons_of_ne_nil hne
    have hcd : c.isDigit = true := by
      apply hdig
      rw [hc]
      exact List.mem_cons_self c cs
    have hcc : ¬(c = '-') := isDigit_ne_dash hcd
    show parseInt (natCharsAux (n.toNat + 1) n.toNat ++ rest) = some (n, rest)
    rw [hc]
    simp only [List.cons_append, parseInt, if_neg hcc]
    rw [← List.cons_append, ← hc]
    rw [show natCharsAux (n.toNat + 1) n.toNat = natChars n.toNat from rfl]
    rw [parseNat_natChars _ _ hrest]
    simp only [Option.map_some']
    have hn : ((n.toNat : Nat) : Int) = n := by omega
    rw [hn]

theorem takeUntilQuote_append (k rest : List Char) (hk : ∀ c ∈ k, c ≠ '"') :
    takeUntilQuote (k ++ '"' :: rest) = some (k, rest) := by
  induction k with
  | nil => simp [takeUntilQuote]
  | cons c cs ih =>
    have hc : ¬(c = '"') := hk c (List.mem_cons_self c cs)
    simp only [List.cons_append, takeUntilQuote, hc, if_false, List.append_eq]
    rw [ih (fun c' hc' => hk c' (List.mem_cons_of_mem c hc'))]
    rfl

theorem dropLit_append (lit rest : List Char) :
    dropLit lit (lit ++ rest) = some rest := by
  induction lit with
  | nil => rfl
  | cons l ls ih => simp [dropLit, ih]

theorem parseField_append (lit : List Char) (a : Int) (rest : List Char)
    (hrest : headNotDigit rest = true) :
    parseField lit (lit ++ (intChars a ++ rest)) = some (a, rest) := by
  unfold parseField
  rw [dropLit_append]
  exact parseInt_intChars a rest hrest

theorem parseField_imm_on_emg (cs : List Char) :
    parseField immFieldLit (emgFieldLit ++ cs) = none := by
  simp [parseField, immFieldLit, emgFieldLit, dropLit]

theorem dropLit_open_hit (cs : List Char) :
    dropLit ['\x7b'] ('\x7b' :: cs) = some cs := by
  simp [dropLit]

theorem dropLit_openclose_hit (cs : List Char) :
    dropLit ['\x7b', '\x7d'] ('\x7b' :: '\x7d' :: cs) = some cs := by
  simp [dropLit]

theorem dropLit_openclose_imm (cs : List Char) :
    dropLit ['\x7b', '\x7d'] ('\x7b' :: (immFieldLit ++ cs)) = none := by
  simp [dropLit, immFieldLit]

theorem dropLit_openclose_emg (cs : List Char) :
    dropLit ['\x7b', '\x7d'] ('\x7b' :: (emgFieldLit ++ cs)) = none := by
  simp [dropLit, emgFieldLit]

theorem dropLit_close_hit (cs : List Char) :
    dropLit ['\x7d'] ('\x7d' :: cs) = some cs := by
  simp [dropLit]

theorem dropLit_close_comma (cs : List Char) :
    dropLit ['\x7d'] (',' :: cs) = none := by
  simp [dropLit]

theorem dropLit_comma_hit (cs : List Char) :
    dropLit [','] (',' :: cs) = some cs := by
  simp [dropLit]

theorem dropLit_quote_hit (cs : List Char) :
    dropLit ['"'] ('"' :: cs) = some cs := by
  simp [dropLit]

theorem dropLit_colon_hit (cs : List Char) :
    dropLit [':'] (':' :: cs) = some cs := by
  simp [dropLit]

theorem parseField_append_comma (lit : List Char) (a : Int) (cs : List Char) :
    parseField lit (lit ++ (intChars a ++ (',' :: cs))) = some (a, ',' :: cs) :=
  parseField_append lit a (',' :: cs) rfl

theorem parseField_append_close (lit : List Char) (a : Int) (cs : List Char) :
    parseField lit (lit ++ (intChars a ++ ('\x7d' :: cs))) = some (a, '\x7d' :: cs) :=
  parseField_append lit a ('\x7d' :: cs) rfl

theorem parseRow_stringify (r : Row) (rest : List Char) :
    parseRow (stringifyRowChars r ++ rest) = some (r, rest) := by
  obtain ⟨imm, emg⟩ := r
  cases imm <;> cases emg
  · simp only [stringifyRowChars, List.cons_append, List.nil_append]
    simp [parseRow, dropLit_openclose_hit]
  · rename_i b
    simp only [stringifyRowChars, List.cons_append, List.append_assoc,
      List.singleton_append]
    simp [parseRow, dropLit_openclose_emg, dropLit_open_hit, parseField_imm_on_emg,
      parseField_append_close, dropLit_close_hit]
  · rename_i a
    simp only [stringifyRowChars, List.cons_append, List.append_assoc,
      List.singleton_append]
    simp [parseRow, dropLit_openclose_imm, dropLit_open_hit,
      parseField_append_close, dropLit_close_hit]
  · rename_i a b
    simp only [stringifyRowChars, List.cons_append, List.append_assoc,
      List.singleton_append]
    simp [parseRow, dropLit_openclose_imm, dropLit_open_hit,
      parseField_append_comma, dropLit_close_comma, dropLit_comma_hit,
      parseField_append_close, dropLit_close_hit]

theorem parseEntry_stringify (e : String × Row) (rest : List Char)
    (hk : ∀ c ∈ e.1.data, c ≠ '"') :
    parseEntry (stringifyEntryChars e ++ rest) = some (e, rest) := by
  obtain ⟨k, r⟩ := e
  simp only [stringifyEntryChars, List.cons_append, List.append_assoc]
  have htk := takeUntilQuote_append k.data (':' :: (stringifyRowChars r ++ rest)) hk
  simp only [parseEntry, dropLit_quote_hit, List.cons_append, htk,
    dropLit_colon_hit, parseRow_stringify, Option.map_some']

theorem parseEntries_stringify :
    ∀ (t : Table) (fuel : Nat) (rest : List Char),
      t ≠ [] → t.length < fuel →
      (∀ k ∈ t.map Prod.fst, plainKey k) →
      parseEntries fuel (stringifyEntriesChars t ++ rest) = some (t, rest) := by
  intro t
  induction t with
  | nil =>
    intro fuel rest h
    exact absurd rfl h
  | cons e t' ih =>
    intro fuel rest _ hfuel hp
    obtain ⟨f, rfl⟩ : ∃ f, fuel = f + 1 := ⟨fuel - 1, by omega⟩
    have hpk : ∀ c ∈ e.1.data, c ≠ '"' := fun c hc => (hp e.1 (by simp) c hc).1
    cases t' with
    | nil =>
      show parseEntries (f + 1) ((stringifyEntryChars e ++ ['\x7d']) ++ rest) = _
      rw [List.append_assoc, List.singleton_append]
      have hpe := parseEntry_stringify e ('\x7d' :: rest) hpk
      simp only [parseEntries, hpe, dropLit_close_hit]
    | cons e₂ t'' =>
      show parseEntries (f + 1)
          ((stringifyEntryChars e ++ ',' :: stringifyEntriesChars (e₂ :: t'')) ++ rest) = _
      rw [List.append_assoc, List.cons_append]
      have hpe := parseEntry_stringify e
        (',' :: (stringifyEntriesChars (e₂ :: t'') ++ rest)) hpk
      simp only [parseEntries, hpe, dropLit_close_comma, dropLit_comma_hit]
      rw [ih f rest (by simp) (by simp only [List.length_cons] at hfuel ⊢; omega)
        (fun k hk => hp k (List.mem_cons_of_mem e.1 hk))]
      rfl

theorem length_le_stringifyEntriesChars (t : Table) :
    t.length ≤ (stringifyEntriesChars t).length := by
  induction t with
  | nil => simp [stringifyEntriesChars]
  | cons e t' ih =>
    cases t' with
    | nil => simp [stringifyEntriesChars, stringifyEntryChars]
    | cons e₂ t'' =>
      show (e :: e₂ :: t'').length
          ≤ (stringifyEntryChars e ++ ',' :: stringifyEntriesChars (e₂ :: t'')).length
      simp only [List.length_cons, List.length_append, stringifyEntryChars] at ih ⊢
      omega

theorem jsonParse_stringifyTable (t : Table)
    (hplain : ∀ k ∈ t.map Prod.fst, plainKey k) :
    jsonParse (stringifyTable t) = some (.tablev t) := by
  unfold jsonParse
  rw [if_neg ?hne]
  case hne =>
    intro h
    have hd : stringifyTableChars t = ['n', 'u', 'l', 'l'] := congrArg String.data h
    simp only [stringifyTableChars] at hd
    injection hd with h1 _
    exact absurd h1 (by decide)
  show (match parseTableChars (stringifyTableChars t) with
        | some (t, []) => some (CachedVal.tablev t)
        | _ => none) = some (CachedVal.tablev t)
  cases t with
  | nil =>
    simp [parseTableChars, stringifyTableChars, stringifyEntriesChars,
      dropLit_openclose_hit]
  | cons e t' =>
    have hopen : dropLit ['\x7b', '\x7d'] (stringifyTableChars (e :: t')) = none := by
      cases t' <;>
        simp [stringifyTableChars, stringifyEntriesChars, stringifyEntryChars, dropLit]
    have hdrop : dropLit ['\x7b'] (stringifyTableChars (e :: t'))
        = some (stringifyEntriesChars (e :: t')) := by
      simp [stringifyTableChars, dropLit]
    have hlen : (e :: t').length < (stringifyEntriesChars (e :: t')).length + 1 := by
      have := length_le_stringifyEntriesChars (e :: t')
      omega
    have hentries := parseEntries_stringify (e :: t')
      ((stringifyEntriesChars (e :: t')).length + 1) [] (by simp) hlen hplain
    rw [List.append_nil] at hentries
    simp only [parseTableChars, hopen, hdrop, hentries]

theorem assocGet_eq_none_iff {α : Type} (l : List (String × α)) (k : String) :
    assocGet l k = none ↔ k ∉ l.map Prod.fst := by
  induction l with
  | nil => simp [assocGet]
  | cons e t ih =>
    obtain ⟨k', v⟩ := e
    by_cases hk : k' = k
    · simp [assocGet, hk]
    · simp [assocGet, hk, ih, Ne.symm hk]

theorem setEntry_keys_of_present {α : Type} (l : List (String × α)) (k : String) (v : α)
    (h : k ∈ l.map Prod.fst) :
    (setEntry l k v).map Prod.fst = l.map Prod.fst := by
  induction l with
  | nil => simp at h
  | cons e t ih =>
    obtain ⟨k', v'⟩ := e
    by_cases hk : k' = k
    · simp [setEntry, hk]
    · have : k ∈ t.map Prod.fst := by
        rcases List.mem_cons.mp h with h1 | h1
        · exact absurd h1.symm hk
        · exact h1
      simp [setEntry, hk, ih this]

theorem nodup_keys_setEntry {α : Type} (l : List (String × α)) (k : String) (v : α)
    (h : (l.map Prod.fst).Nodup) :
    ((setEntry l k v).map Prod.fst).Nodup := by
  by_cases hk : k ∈ l.map Prod.fst
  · rw [setEntry_keys_of_present l k v hk]
    exact h
  · rw [setEntry_of_absent l k v ((assocGet_eq_none_iff l k).mpr hk)]
    simp only [List.map_append, List.map_cons, List.map_nil]
    rw [List.nodup_append]
    exact ⟨h, List.nodup_singleton k, by simpa using hk⟩

theorem formatMigrationData_keys_nodup (imm emg : Cube) :
    ((formatMigrationData imm emg).map Prod.fst).Nodup := by
  unfold formatMigrationData
  suffices h : ∀ (idx : List (String × Nat)) (acc : Table),
      (acc.map Prod.fst).Nodup →
      ((idx.foldl
          (fun a kv => setEntry a (stripKU kv.1) (mkRow imm emg kv)) acc).map
        Prod.fst).Nodup by
    exact h imm.index [] (by simp)
  intro idx
  induction idx with
  | nil =>
    intro acc hacc
    simpa using hacc
  | cons kv rest ih =>
    intro acc hacc
    exact ih _ (nodup_keys_setEntry _ _ _ hacc)

/-- Claim C8.  For every migration table the decoder can produce (over keys
`JSON.stringify` writes verbatim), serializing it into the session cache and
reading it back through `JSON.parse` yields the identical table — same
region-code keys (which are moreover pairwise distinct), same immigration
and emigration counts. -/
theorem migration_cache_roundtrip (imm emg : Cube)
    (hplain : ∀ k ∈ (formatMigrationData imm emg).map Prod.fst, plainKey k) :
    readEntry (some (stringifyTable (formatMigrationData imm emg)))
      = some (.tablev (formatMigrationData imm emg))
    ∧ ((formatMigrationData imm emg).map Prod.fst).Nodup :=
  ⟨jsonParse_stringifyTable (formatMigrationData imm emg) hplain,
   formatMigrationData_keys_nodup imm emg⟩

/-- Witness for C8 at a concrete cube pair. -/
theorem migration_cache_roundtrip_witness :
    readEntry (some (stringifyTable (formatMigrationData sampleImmCube sampleEmgCube)))
      = some (.tablev (formatMigrationData sampleImmCube sampleEmgCube))
    ∧ ((formatMigrationData sampleImmCube sampleEmgCube).map Prod.fst).Nodup :=
  migration_cache_roundtrip sampleImmCube sampleEmgCube (by decide)
